import Mathlib

/-!
Verification of the trip-planner core (plan builder, replanner, validators,
tool wrapper, date commitment) against a shallow Lean embedding of the
Python source in src/utils/plan.py, src/utils/models.py,
src/utils/tooling.py and src/agents/trip_planner_agent.py.

Python values are modelled explicitly: optional dictionary entries become
Option, Python truthiness is made explicit, machine floats carried by the
payloads are modelled as rationals, and fallible code returns Except.
-/

namespace TripPlanner

/-- Python truthiness of an optional string slot, as in bool(ctx.get(key)):
absent keys and the empty string are falsy. -/
def truthyS : Option String → Bool
  | Option.none => false
  | some s => s ≠ ""

/-- Python truthiness of an optional integer slot: absent keys and 0 are falsy. -/
def truthyI : Option Int → Bool
  | Option.none => false
  | some n => n ≠ 0

/-- The mutable context dictionary threaded through the agent, restricted to
the keys the verified code reads or writes.  An absent dictionary key is
Option.none. -/
structure Ctx where
  user_city : Option String := Option.none
  destination : Option String := Option.none
  start_date : Option String := Option.none
  committed_start_date : Option String := Option.none
  proposed_start_date : Option String := Option.none
  proposed_month : Option String := Option.none
  duration_days : Option Int := Option.none
  number_of_travelers : Option Int := Option.none
  flight_cost : Option ℚ := Option.none
  deriving DecidableEq, Repr

/-- PlanStep from src/utils/models.py: id, step kind, prerequisite slots,
status (default "pending"), optional error, metadata map (always built
empty by the code under verification). -/
structure PlanStep where
  id : String
  step : String
  requires : List String
  status : String := "pending"
  error : Option String := Option.none
  meta : List (String × String) := []
  deriving DecidableEq, Repr

/-- PlanStep constructor as used inside build_plan: only id, step and
requires are supplied, the rest defaults. -/
def mkStep (i : String) (step : String) (req : List String) : PlanStep :=
  { id := i, step := step, requires := req }

/-- The final reindexing loop of build_plan: ids are reassigned "1".."N"
sequentially after filtering. -/
def reindex (steps : List PlanStep) : List PlanStep :=
  steps.mapIdx fun i s => { s with id := toString (i + 1) }

/-- build_plan from src/utils/plan.py, with the four truthiness tests
bool(ctx.get(...)) made explicit as boolean parameters.  The appended step
literals are exactly those of the source. -/
def buildPlanB (have_origin have_dest have_date have_duration : Bool) :
    List PlanStep :=
  reindex (
    (if have_origin && have_dest && have_date then
      [mkStep "1" "flights" ["user_city", "destination", "committed_start_date"]]
     else [])
    ++ (if have_dest && have_date then
      [mkStep "2" "weather" ["destination", "committed_start_date"]]
     else [])
    ++ (if have_dest then
      [mkStep "3" "activities" ["destination"],
       mkStep "4" "nearby" ["destination"]]
     else [])
    ++ (if have_dest && have_duration then
      [mkStep "5" "budget" ["destination"]]
     else [])
    ++ [mkStep "6" "assemble" []])

/-- build_plan(ctx) from src/utils/plan.py lines 11-39. -/
def build_plan (ctx : Ctx) : List PlanStep :=
  buildPlanB (truthyS ctx.user_city) (truthyS ctx.destination)
    (truthyS ctx.committed_start_date) (truthyI ctx.duration_days)

/-- Whether the built plan contains a step of the given kind. -/
def hasKind (ctx : Ctx) (k : String) : Bool :=
  (build_plan ctx).any fun s => s.step == k

/-- The signature tuple actually computed by replan (plan.py line 44):
key_hash = (ctx.get(user_city), ctx.get(destination), ctx.get(committed_start_date)). -/
def sig3 (ctx : Ctx) : Option String × Option String × Option String :=
  (ctx.user_city, ctx.destination, ctx.committed_start_date)

/-- The five-component signature the specification describes:
(origin, destination, committed date, duration, traveler count). -/
def sig5 (ctx : Ctx) :
    Option String × Option String × Option String × Option Int × Option Int :=
  (ctx.user_city, ctx.destination, ctx.committed_start_date,
   ctx.duration_days, ctx.number_of_travelers)

/-- replan from src/utils/plan.py lines 42-51.  The hidden function
attribute replan._prev_keys is passed and returned explicitly; its initial
value getattr(replan, _prev_keys, None) is Option.none. -/
def replan (ctx : Ctx) (previous : List PlanStep)
    (prev_keys : Option (Option String × Option String × Option String)) :
    List PlanStep × Option (Option String × Option String × Option String) :=
  if prev_keys ≠ some (sig3 ctx) then (build_plan ctx, some (sig3 ctx))
  else (previous, prev_keys)

/-! Date-commitment pipeline of trip_planner_node
(src/agents/trip_planner_agent.py lines 46-89).  The regular expressions of
the source are embedded as explicit character scans. -/

/-- A regex word character (the class backslash-w restricted to ASCII). -/
def isWordChar (c : Char) : Bool := c.isAlphanum || c == '_'

/-- str.lower, character by character. -/
def lowerStr (s : String) : String := String.mk (s.toList.map Char.toLower)

/-- str.strip on a character list: leading and trailing whitespace removed. -/
def trimChars (l : List Char) : List Char :=
  ((l.dropWhile Char.isWhitespace).reverse.dropWhile Char.isWhitespace).reverse

/-- str.strip. -/
def trimStr (s : String) : String := String.mk (trimChars s.toList)

/-- str.split with no separator: maximal non-whitespace runs, empties
dropped. -/
def wsTokensAux : List Char → List Char → List (List Char)
  | [], acc => if acc.isEmpty then [] else [acc.reverse]
  | c :: rest, acc =>
    if c.isWhitespace then
      if acc.isEmpty then wsTokensAux rest []
      else acc.reverse :: wsTokensAux rest []
    else wsTokensAux rest (c :: acc)

/-- The whitespace-separated tokens of a string. -/
def wsTokens (s : String) : List (List Char) := wsTokensAux s.toList []

/-- str.split(sep) for a single-character separator, keeping empty parts. -/
def splitOnCharAux (sep : Char) : List Char → List Char → List (List Char)
  | [], acc => [acc.reverse]
  | c :: rest, acc =>
    if c == sep then acc.reverse :: splitOnCharAux sep rest []
    else splitOnCharAux sep rest (c :: acc)

/-- All parts of a character list around a separator character. -/
def splitOnChar (sep : Char) (l : List Char) : List (List Char) :=
  splitOnCharAux sep l []

/-- Full match of the anchored pattern for an ISO date: four digits,
hyphen, two digits, hyphen, two digits. -/
def isISO (s : String) : Bool :=
  match s.toList with
  | [y1, y2, y3, y4, h1, m1, m2, h2, d1, d2] =>
    y1.isDigit && y2.isDigit && y3.isDigit && y4.isDigit && h1 == '-' &&
    m1.isDigit && m2.isDigit && h2 == '-' && d1.isDigit && d2.isDigit
  | _ => false

/-- Whether a character list starts with a ten-character window matching
20dd-dd-dd (the captured group of the search pattern on line 66). -/
def matchISO20 : List Char → Bool
  | c1 :: c2 :: c3 :: c4 :: h1 :: c5 :: c6 :: h2 :: c7 :: c8 :: _ =>
    c1 == '2' && c2 == '0' && c3.isDigit && c4.isDigit && h1 == '-' &&
    c5.isDigit && c6.isDigit && h2 == '-' && c7.isDigit && c8.isDigit
  | _ => false

/-- Word-boundary condition after the ten-character window. -/
def boundaryAfter10 (l : List Char) : Bool :=
  match l.drop 10 with
  | [] => true
  | c :: _ => !isWordChar c

/-- Leftmost search for the bounded ISO-date pattern, carrying the
preceding character for the left word boundary. -/
def searchISOAux : Option Char → List Char → Option String
  | _, [] => Option.none
  | prev, c :: rest =>
    if matchISO20 (c :: rest) &&
       (match prev with | Option.none => true | some p => !isWordChar p) &&
       boundaryAfter10 (c :: rest) then
      some (String.mk ((c :: rest).take 10))
    else searchISOAux (some c) rest

/-- re.search for a word-bounded 20dd-dd-dd date in the user input
(line 66 of the agent). -/
def searchISO (ui : String) : Option String := searchISOAux Option.none ui.toList

/-- Occurrence of a literal word-bounded phrase in a character list; the
phrases used below start and end in word characters, so both boundaries
require a non-word neighbour (or the ends of the text). -/
def occursWB (pat : List Char) : Option Char → List Char → Bool
  | _, [] => false
  | prev, c :: rest =>
    if pat.isPrefixOf (c :: rest) &&
       (match prev with | Option.none => true | some p => !isWordChar p) &&
       (match (c :: rest).drop pat.length with
        | [] => true
        | d :: _ => !isWordChar d) then true
    else occursWB pat (some c) rest

/-- The confirmation alternatives of the pattern on line 71. -/
def confirmTokens : List String := ["use that", "that works", "ok", "okay", "yes"]

/-- re.search for a word-bounded confirmation phrase; the source applies it
to the lowercased user input. -/
def hasConfirm (lowered : String) : Bool :=
  confirmTokens.any fun t => occursWB t.toList Option.none lowered.toList

/-- datetime.strptime(v, "%B") on a lowercased token: full English month
names only. -/
def monthFromName : String → Option Nat
  | "january" => some 1
  | "february" => some 2
  | "march" => some 3
  | "april" => some 4
  | "may" => some 5
  | "june" => some 6
  | "july" => some 7
  | "august" => some 8
  | "september" => some 9
  | "october" => some 10
  | "november" => some 11
  | "december" => some 12
  | _ => Option.none

/-- Two-digit zero padding, as the format directive 02d. -/
def pad2 (n : Nat) : String := if n < 10 then "0" ++ toString n else toString n

/-- normalize_month from the agent, lines 46-57.  The current year of
datetime.utcnow() is passed explicitly. -/
def normalize_month (year : Nat) (value : String) : String :=
  if value = "" then value
  else
    let v := trimStr value
    if isISO v then v
    else
      match monthFromName (lowerStr v) with
      | some m => toString year ++ "-" ++ pad2 m ++ "-01"
      | Option.none => value

/-- len(str(s).split()) == 1: exactly one whitespace-separated token. -/
def singleToken (s : String) : Bool :=
  (wsTokens s).length == 1

/-- The month-abbreviation alternatives of the anchored pattern on line 87. -/
def monthAbbrevs : List String :=
  ["jan", "feb", "mar", "apr", "may", "jun", "jul", "aug", "sep", "sept",
   "oct", "nov", "dec"]

/-- re.match of the month-abbreviation pattern: some alternative starts
the token. -/
def startsWithMonthAbbrev (s : String) : Bool :=
  monthAbbrevs.any fun p => p.isPrefixOf s

/-- Lines 59-72 of the agent: if start_date is missing, restore it from
committed_start_date, else capture an ISO date from the user input, else
commit a proposed date on an explicit confirmation phrase. -/
def captureStart (ui : String) (ctx : Ctx) : Ctx :=
  if truthyS ctx.start_date then ctx
  else if truthyS ctx.committed_start_date then
    { ctx with start_date := ctx.committed_start_date }
  else
    match searchISO ui with
    | some d => { ctx with start_date := some d }
    | Option.none =>
      if truthyS ctx.proposed_start_date && hasConfirm (lowerStr ui) then
        { ctx with start_date := ctx.proposed_start_date }
      else ctx

/-- Lines 74-75 of the agent: a single-token start_date is passed through
normalize_month. -/
def normalizeStep (year : Nat) (ctx : Ctx) : Ctx :=
  match ctx.start_date with
  | some s =>
    if s ≠ "" && singleToken s then
      { ctx with start_date := some (normalize_month year s) }
    else ctx
  | Option.none => ctx

/-- Lines 81-89 of the agent: an ISO start_date is committed; a non-ISO
start_date beginning with a month abbreviation is moved to proposed_month
and popped. -/
def commitStep (ctx : Ctx) : Ctx :=
  match ctx.start_date with
  | some s =>
    if s ≠ "" && isISO s then { ctx with committed_start_date := some s }
    else if s ≠ "" && !isISO s then
      let tok := trimStr (lowerStr s)
      if startsWithMonthAbbrev tok then
        { ctx with proposed_month := some tok, start_date := Option.none }
      else ctx
    else ctx
  | Option.none => ctx

/-- The full date-handling segment of trip_planner_node, lines 59-89. -/
def processDates (year : Nat) (ui : String) (ctx : Ctx) : Ctx :=
  commitStep (normalizeStep year (captureStart ui ctx))

/-- The normalization actually applied to a present start_date value
before the commit test: normalize_month on single tokens, identity
otherwise. -/
def normalizeStart (year : Nat) (s : String) : String :=
  if s ≠ "" && singleToken s then normalize_month year s else s

/-! Result validators and the tool invocation wrapper
(src/utils/tooling.py).  Raw tool payloads are duck-typed Python values;
they are modelled by an explicit scalar type, dictionary items and a
list-or-not payload.  Python floats are modelled as rationals. -/

/-- A scalar Python value as it occurs in tool payload dictionaries. -/
inductive PyScalar where
  | pnone
  | pbool (b : Bool)
  | pint (n : Int)
  | pfloat (q : ℚ)
  | pstr (s : String)
  deriving DecidableEq, Repr

/-- Python truthiness of a scalar. -/
def truthy : PyScalar → Bool
  | .pnone => false
  | .pbool b => b
  | .pint n => n ≠ 0
  | .pfloat q => q ≠ 0
  | .pstr s => s ≠ ""

/-- An element of a raw payload list: a dictionary of scalars, or any
non-dictionary value (one scalar representative stands for every
non-dictionary Python value). -/
inductive PyItem where
  | scalar (v : PyScalar)
  | dict (kvs : List (String × PyScalar))
  deriving DecidableEq, Repr

/-- A raw tool payload: a Python list of items, or any non-list value. -/
inductive RawPayload where
  | plist (items : List PyItem)
  | nonList (v : PyItem)
  deriving DecidableEq, Repr

/-- The digit value of a digit character list, Option.none unless the list
is a non-empty run of digits. -/
def digitsVal (cs : List Char) : Option Nat :=
  if cs ≠ [] && cs.all Char.isDigit then
    some (cs.foldl (fun a c => a * 10 + (c.toNat - 48)) 0)
  else Option.none

/-- The digit value with empty runs allowed (for "1." and ".5"). -/
def digitsValD (cs : List Char) : Nat :=
  cs.foldl (fun a c => a * 10 + (c.toNat - 48)) 0

/-- Python float(s) on a string: optional sign, plain decimal notation.
Exponents and the special words inf and nan are outside this model. -/
def parseFloat? (s : String) : Option ℚ :=
  let t := trimChars s.toList
  let sg : ℚ := match t with
    | '-' :: _ => -1
    | _ => 1
  let body : List Char := match t with
    | '-' :: r => r
    | '+' :: r => r
    | r => r
  match splitOnChar '.' body with
  | [ip] => (digitsVal ip).map fun n => sg * n
  | [ip, fp] =>
    if ip.isEmpty && fp.isEmpty then Option.none
    else if ip.all Char.isDigit && fp.all Char.isDigit then
      some (sg * ((digitsValD ip : ℚ) + (digitsValD fp : ℚ) / ((10 : ℚ) ^ fp.length)))
    else Option.none
  | _ => Option.none

/-- Python float(v) on a scalar: numbers and booleans convert, strings are
parsed, anything else raises. -/
def pyFloat : PyScalar → Except String ℚ
  | .pint n => .ok (n : ℚ)
  | .pfloat q => .ok q
  | .pbool b => .ok (if b then 1 else 0)
  | .pstr s =>
    match parseFloat? s with
    | some q => .ok q
    | Option.none => .error ("could not convert string to float: " ++ s)
  | .pnone => .error "float argument must be a string or a real number, not NoneType"

/-- Python str(v) on a scalar. -/
def pyStr : PyScalar → String
  | .pstr s => s
  | .pint n => toString n
  | .pfloat q => toString q
  | .pbool b => if b then "True" else "False"
  | .pnone => "None"

/-- FlightOffer from src/utils/models.py. -/
structure FlightOffer where
  price : ℚ
  currency : String
  departure_airport : String
  arrival_airport : String
  departure_time : String
  airline : String
  deriving DecidableEq, Repr

/-- The FlightOffer coercion inside validate_flights, evaluated in source
order: price (lookup then float), currency with default "USD", the three
required string fields, airline with default "".  The first failure wins
and is rendered with the bad_item prefix of the source. -/
def coerceOffer (kvs : List (String × PyScalar)) : Except String FlightOffer :=
  match kvs.lookup "price" with
  | Option.none => .error "bad_item:KeyError price"
  | some pv =>
    match pyFloat pv with
    | .error e => .error ("bad_item:" ++ e)
    | .ok price =>
      let currency := pyStr ((kvs.lookup "currency").getD (.pstr "USD"))
      match kvs.lookup "departure_airport" with
      | Option.none => .error "bad_item:KeyError departure_airport"
      | some da =>
        match kvs.lookup "arrival_airport" with
        | Option.none => .error "bad_item:KeyError arrival_airport"
        | some aa =>
          match kvs.lookup "departure_time" with
          | Option.none => .error "bad_item:KeyError departure_time"
          | some dt =>
            let airline := pyStr ((kvs.lookup "airline").getD (.pstr ""))
            .ok { price := price, currency := currency,
                  departure_airport := pyStr da, arrival_airport := pyStr aa,
                  departure_time := pyStr dt, airline := airline }

/-- The per-element branch of validate_flights: non-dictionaries report
non_dict_item; a dictionary with an error key reports its value, or
flight_error when that value is falsy; otherwise the coercion result. -/
def validateItem : PyItem → List FlightOffer × List PyScalar
  | .scalar _ => ([], [.pstr "non_dict_item"])
  | .dict kvs =>
    match kvs.lookup "error" with
    | some v => ([], [if truthy v then v else .pstr "flight_error"])
    | Option.none =>
      match coerceOffer kvs with
      | .ok o => ([o], [])
      | .error m => ([], [.pstr m])

/-- The element loop of validate_flights, appending offers and errors in
order. -/
def validateItems : List PyItem → List FlightOffer × List PyScalar
  | [] => ([], [])
  | item :: rest =>
    let r := validateItem item
    let r2 := validateItems rest
    (r.1 ++ r2.1, r.2 ++ r2.2)

/-- validate_flights from src/utils/tooling.py lines 47-70, returning the
offers and errors lists; errors keep the raw appended values (the fixed
marker strings, or the dictionary error value itself). -/
def validate_flights : RawPayload → List FlightOffer × List PyScalar
  | .nonList _ => ([], [.pstr "not_list"])
  | .plist items => validateItems items

/-- extract_min_price from src/utils/tooling.py lines 79-85: None on the
empty list, otherwise the minimum price.  Every typed FlightOffer price is
numeric, so the isinstance filter of the source keeps every element, and
the try/except around min never fires on a non-empty list. -/
def extract_min_price : List FlightOffer → Option ℚ
  | [] => Option.none
  | o :: rest => some (rest.foldl (fun m x => min m x.price) o.price)

/-- Substring test on character lists (the Python in operator on strings). -/
def containsSub : List Char → List Char → Bool
  | [], pat => pat.isEmpty
  | c :: rest, pat => pat.isPrefixOf (c :: rest) || containsSub rest pat

/-- Whether the pattern occurs inside the string. -/
def strContains (s pat : String) : Bool := containsSub s.toList pat.toList

/-- classify_error from src/utils/tooling.py lines 18-24: the lowercased
error text is scanned for network markers first, then invalid-input
markers, defaulting to external_failure. -/
def classify_error (e : String) : String :=
  let txt := lowerStr e
  if strContains txt "timeout" || strContains txt "connection" || strContains txt "network" then
    "network_error"
  else if strContains txt "invalid" || strContains txt "valueerror" then
    "invalid_input"
  else "external_failure"

/-- The metadata dictionary run_tool attaches: tool name and elapsed
milliseconds. -/
structure ToolMeta where
  tool : String := ""
  latency_ms : Nat := 0
  deriving DecidableEq, Repr

/-- ToolResult from src/utils/models.py. -/
structure ToolResult where
  ok : Bool
  data : Option RawPayload := Option.none
  error : Option String := Option.none
  meta : Option ToolMeta := Option.none
  deriving DecidableEq, Repr

/-- run_tool from src/utils/tooling.py lines 26-33.  The awaited callable
is modelled by its outcome (a payload or the text of the raised exception)
together with its elapsed duration; the source records the duration only
in the latency metadata and applies no timeout to the call. -/
def run_tool (name : String) (duration : Nat)
    (outcome : Except String RawPayload) : ToolResult :=
  match outcome with
  | .ok raw =>
    { ok := true, data := some raw,
      meta := some { tool := name, latency_ms := duration } }
  | .error e =>
    { ok := false, error := some (classify_error e ++ ": " ++ e),
      meta := some { tool := name, latency_ms := duration } }

/-- The fate of one task awaited by run_parallel: either run_tool
completed (it catches every exception of the callable itself), or the
await of the task raised, which the source converts to an
external_failure ToolResult. -/
inductive TaskOutcome where
  | completed (duration : Nat) (outcome : Except String RawPayload)
  | awaitError (e : String)
  deriving Repr

/-- run_parallel from src/utils/tooling.py lines 35-44: a name-keyed batch
mapped to ToolResults, never raising. -/
def run_parallel (batch : List (String × TaskOutcome)) :
    List (String × ToolResult) :=
  batch.map fun kt =>
    (kt.1,
     match kt.2 with
     | .completed d o => run_tool kt.1 d o
     | .awaitError e => { ok := false, error := some ("external_failure: " ++ e) })

/-! Flight-cost derivation of trip_planner_node
(src/agents/trip_planner_agent.py lines 245-258). -/

/-- p = f.get(price) if isinstance(f, dict) else None, inside the price
loop. -/
def priceOf : PyItem → Option PyScalar
  | .dict kvs => kvs.lookup "price"
  | .scalar _ => Option.none

/-- One iteration of the price loop: numeric prices (Python booleans are
ints) are kept, string prices parse their first whitespace token with the
failure swallowed, everything else is skipped. -/
def collectPrice : Option PyScalar → Option ℚ
  | some (.pint n) => some (n : ℚ)
  | some (.pfloat q) => some q
  | some (.pbool b) => some (if b then 1 else 0)
  | some (.pstr s) =>
    match wsTokens s with
    | t :: _ => parseFloat? (String.mk t)
    | [] => Option.none
  | some .pnone => Option.none
  | Option.none => Option.none

/-- The Python containment test key in item on a payload element: key
presence for dictionaries, substring for strings, a TypeError otherwise.
The test on line 245 sits outside any try block, so its TypeError
propagates. -/
def itemHasKey (f : PyItem) (k : String) : Except String Bool :=
  match f with
  | .dict kvs => .ok ((kvs.lookup k).isSome)
  | .scalar (.pstr s) => .ok (strContains s k)
  | .scalar _ => .error "TypeError: argument of type is not iterable"

/-- Lines 245-258 of the agent: when the raw flights payload is a
non-empty list whose first element has a price key and no error key, the
minimum collected price is written to ctx.flight_cost; the inner loop and
min sit in a try block whose failure leaves the context unchanged. -/
def derive_flight_cost (flightsRaw : RawPayload) (ctx : Ctx) :
    Except String Ctx :=
  match flightsRaw with
  | .nonList _ => .ok ctx
  | .plist [] => .ok ctx
  | .plist (f0 :: rest) =>
    match itemHasKey f0 "price" with
    | .error e => .error e
    | .ok hasPrice =>
      if !hasPrice then .ok ctx
      else
        match itemHasKey f0 "error" with
        | .error e => .error e
        | .ok hasErr =>
          if hasErr then .ok ctx
          else
            match (f0 :: rest).filterMap (fun f => collectPrice (priceOf f)) with
            | [] => .ok ctx
            | q :: qs => .ok { ctx with flight_cost := some (qs.foldl min q) }

/-- Modelled from the spec: the Plan Executor per-step status update is
not in src -- the repository has only the PlanStep status field
(src/utils/models.py) and a sequential tool-calling node that keeps no
step statuses.  Per the spec, a step whose tool call succeeds ends done
and a failed one ends error, both terminal. -/
def step_status_after (r : ToolResult) : String :=
  if r.ok then "done" else "error"

/-! Concrete fixtures used by the claim theorems. -/

/-- A context whose destination key is present but holds the empty string. -/
def ctxEmptyDest : Ctx := { destination := some "" }

/-- The full context of the end-to-end scenario in the spec. -/
def ctxFull : Ctx :=
  { user_city := some "Delhi", destination := some "Goa",
    start_date := some "2025-12-10", committed_start_date := some "2025-12-10",
    duration_days := some 4, number_of_travelers := some 2 }

/-- The same trip with only the duration changed. -/
def ctxFullLonger : Ctx := { ctxFull with duration_days := some 5 }

/-- A previous plan holding a terminal step. -/
def donePlan : List PlanStep :=
  [{ id := "1", step := "flights",
     requires := ["user_city", "destination", "committed_start_date"],
     status := "done" }]

/-- A context whose start_date is a bare month name. -/
def ctxDecember : Ctx := { start_date := some "december" }

/-- The flights payload of the end-to-end scenario: two offers priced 120
and 95. -/
def flightsPayload : RawPayload :=
  .plist
    [.dict [("price", .pint 120), ("currency", .pstr "USD"),
            ("departure_airport", .pstr "DEL"), ("arrival_airport", .pstr "GOI"),
            ("departure_time", .pstr "2025-12-10T09:00"), ("airline", .pstr "AI")],
     .dict [("price", .pint 95), ("currency", .pstr "USD"),
            ("departure_airport", .pstr "DEL"), ("arrival_airport", .pstr "GOI"),
            ("departure_time", .pstr "2025-12-10T12:00"), ("airline", .pstr "6E")]]

/-- Offers priced 820, 430 and 999, as in the spec scenario for
extract_min_price. -/
def offers820 : List FlightOffer :=
  [{ price := 820, currency := "USD", departure_airport := "DEL",
     arrival_airport := "GOI", departure_time := "t1", airline := "AI" },
   { price := 430, currency := "USD", departure_airport := "DEL",
     arrival_airport := "GOI", departure_time := "t2", airline := "6E" },
   { price := 999, currency := "USD", departure_airport := "DEL",
     arrival_airport := "GOI", departure_time := "t3", airline := "UK" }]

/-- The per-call timeout behaviour the specification asserts for the tool
invocation wrapper, stated over the embedded run_tool with the reference
limit of 15 time units: any longer call fails with a network_error
classification. -/
def timeoutEnforcedClaim : Prop :=
  ∀ (name : String) (d : Nat) (outcome : Except String RawPayload),
    d > 15 →
    (run_tool name d outcome).ok = false ∧
    ∃ rest, (run_tool name d outcome).error = some ("network_error" ++ rest)

/-- A context whose start_date already holds an ISO date. -/
def ctxISOStart : Ctx := { start_date := some "2025-12-10" }

/-! Helper lemmas. -/

theorem buildPlanB_kinds : ∀ a b c d : Bool,
    ((buildPlanB a b c d).any fun s => s.step == "flights") = (a && b && c)
  ∧ ((buildPlanB a b c d).any fun s => s.step == "weather") = (b && c)
  ∧ ((buildPlanB a b c d).any fun s => s.step == "activities") = b
  ∧ ((buildPlanB a b c d).any fun s => s.step == "nearby") = b
  ∧ ((buildPlanB a b c d).any fun s => s.step == "budget") = (b && d) := by
  decide

theorem buildPlanB_shape : ∀ a b c d : Bool,
    ((buildPlanB a b c d).map fun s => s.step).Sublist
      ["flights", "weather", "activities", "nearby", "budget", "assemble"]
  ∧ ((buildPlanB a b c d).map fun s => s.step).getLast? = some "assemble"
  ∧ ((buildPlanB a b c d).map fun s => s.id) =
      (List.range (buildPlanB a b c d).length).map (fun i => toString (i + 1))
  ∧ ∀ s ∈ buildPlanB a b c d, s.status = "pending" := by
  decide

/-- Claim C1: build_plan includes a step kind exactly when all of its
prerequisite slots are present; a context missing a required slot of kind
K yields no K step.  Counterexample to the claim as stated: a context
whose destination key is present but holds the empty string is excluded
by the truthiness test bool(ctx.get(destination)), so the activities step
is absent although the destination slot is present. -/
theorem C1_counterexample :
    ctxEmptyDest.destination.isSome = true ∧
    hasKind ctxEmptyDest "activities" = false := by
  decide

/-- Claim C1 (amended): a step kind is included exactly when all of its
prerequisite slots hold truthy values (non-empty strings, non-zero
duration); in particular every context actually missing a required slot
of kind K yields no K step. -/
theorem C1_step_gating (ctx : Ctx) :
    (hasKind ctx "flights" =
      (truthyS ctx.user_city && truthyS ctx.destination && truthyS ctx.committed_start_date))
  ∧ (hasKind ctx "weather" = (truthyS ctx.destination && truthyS ctx.committed_start_date))
  ∧ (hasKind ctx "activities" = truthyS ctx.destination)
  ∧ (hasKind ctx "nearby" = truthyS ctx.destination)
  ∧ (hasKind ctx "budget" = (truthyS ctx.destination && truthyI ctx.duration_days))
  ∧ (ctx.user_city = Option.none → hasKind ctx "flights" = false)
  ∧ (ctx.destination = Option.none →
      hasKind ctx "flights" = false ∧ hasKind ctx "weather" = false ∧
      hasKind ctx "activities" = false ∧ hasKind ctx "nearby" = false ∧
      hasKind ctx "budget" = false)
  ∧ (ctx.committed_start_date = Option.none →
      hasKind ctx "flights" = false ∧ hasKind ctx "weather" = false)
  ∧ (ctx.duration_days = Option.none → hasKind ctx "budget" = false) := by
  obtain ⟨h1, h2, h3, h4, h5⟩ :=
    buildPlanB_kinds (truthyS ctx.user_city) (truthyS ctx.destination)
      (truthyS ctx.committed_start_date) (truthyI ctx.duration_days)
  have e1 : hasKind ctx "flights" =
      (truthyS ctx.user_city && truthyS ctx.destination && truthyS ctx.committed_start_date) := h1
  have e2 : hasKind ctx "weather" =
      (truthyS ctx.destination && truthyS ctx.committed_start_date) := h2
  have e3 : hasKind ctx "activities" = truthyS ctx.destination := h3
  have e4 : hasKind ctx "nearby" = truthyS ctx.destination := h4
  have e5 : hasKind ctx "budget" =
      (truthyS ctx.destination && truthyI ctx.duration_days) := h5
  refine ⟨e1, e2, e3, e4, e5, ?_, ?_, ?_, ?_⟩
  · intro h
    have hf : truthyS ctx.user_city = false := by rw [h]; rfl
    rw [e1, hf]; simp
  · intro h
    have hf : truthyS ctx.destination = false := by rw [h]; rfl
    exact ⟨by rw [e1, hf]; simp, by rw [e2, hf]; simp, by rw [e3, hf],
      by rw [e4, hf], by rw [e5, hf]; simp⟩
  · intro h
    have hf : truthyS ctx.committed_start_date = false := by rw [h]; rfl
    exact ⟨by rw [e1, hf]; simp, by rw [e2, hf]; simp⟩
  · intro h
    have hf : truthyI ctx.duration_days = false := by rw [h]; rfl
    rw [e5, hf]; simp

/-- Witness for C1_step_gating at the empty context. -/
theorem C1_witness : hasKind {} "flights" = false :=
  (C1_step_gating {}).2.2.2.2.2.1 rfl

/-- Claim C2 counterexample: the code computes a three-component
signature (plan.py line 44), so a change only to the duration leaves the
recorded signature equal and replan returns the previous plan with its
terminal step, not a fresh all-pending plan as the claim states for a
changed five-component signature. -/
theorem C2_counterexample :
    sig5 ctxFullLonger ≠ sig5 ctxFull
  ∧ (replan ctxFullLonger donePlan (some (sig3 ctxFull))).1 = donePlan
  ∧ ¬ (∀ s ∈ (replan ctxFullLonger donePlan (some (sig3 ctxFull))).1,
        s.status = "pending") := by
  decide

/-- Claim C2 (amended): replan compares the three-component signature
(origin, destination, committed date); on equality with the recorded one
it returns the previous plan unchanged, on inequality a freshly built
plan whose steps are all pending. -/
theorem C2_replan_signature (ctx : Ctx) (previous : List PlanStep)
    (pk : Option (Option String × Option String × Option String)) :
    (pk = some (sig3 ctx) → replan ctx previous pk = (previous, pk))
  ∧ (pk ≠ some (sig3 ctx) →
      (replan ctx previous pk).1 = build_plan ctx ∧
      (replan ctx previous pk).2 = some (sig3 ctx) ∧
      ∀ s ∈ (replan ctx previous pk).1, s.status = "pending") := by
  constructor
  · intro h
    unfold replan
    rw [if_neg]
    simp [h]
  · intro h
    have e : replan ctx previous pk = (build_plan ctx, some (sig3 ctx)) := by
      unfold replan; rw [if_pos h]
    rw [e]
    exact ⟨rfl, rfl, (buildPlanB_shape _ _ _ _).2.2.2⟩

/-- Witness for C2_replan_signature at an unchanged signature. -/
theorem C2_witness :
    replan ctxFull donePlan (some (sig3 ctxFull)) = (donePlan, some (sig3 ctxFull)) :=
  (C2_replan_signature ctxFull donePlan (some (sig3 ctxFull))).1 rfl

/-- Claim C9: for a fixed context build_plan is deterministic (it is a
pure function of the context), its kinds are a filtered subsequence of
the fixed order flights, weather, activities, nearby, budget, assemble,
the last step is always assemble, and ids are reassigned "1".."N". -/
theorem C9_plan_shape (ctx : Ctx) :
    ((build_plan ctx).map fun s => s.step).Sublist
      ["flights", "weather", "activities", "nearby", "budget", "assemble"]
  ∧ ((build_plan ctx).map fun s => s.step).getLast? = some "assemble"
  ∧ ((build_plan ctx).map fun s => s.id) =
      (List.range (build_plan ctx).length).map (fun i => toString (i + 1)) := by
  obtain ⟨h1, h2, h3, _⟩ :=
    buildPlanB_shape (truthyS ctx.user_city) (truthyS ctx.destination)
      (truthyS ctx.committed_start_date) (truthyI ctx.duration_days)
  exact ⟨h1, h2, h3⟩

theorem captureStart_committed (ui : String) (ctx : Ctx) :
    (captureStart ui ctx).committed_start_date = ctx.committed_start_date := by
  unfold captureStart
  by_cases h1 : truthyS ctx.start_date = true
  · rw [if_pos h1]
  · rw [if_neg h1]
    by_cases h2 : truthyS ctx.committed_start_date = true
    · rw [if_pos h2]
    · rw [if_neg h2]
      cases searchISO ui with
      | none =>
        by_cases h3 : (truthyS ctx.proposed_start_date && hasConfirm (lowerStr ui)) = true
        · simp only [h3, if_true]
        · simp only [h3, if_false, Bool.false_eq_true]
      | some f => rfl

theorem captureStart_start (ui : String) (ctx : Ctx)
    (hc : truthyS ctx.committed_start_date = false) :
    (truthyS ctx.start_date = true ∧ captureStart ui ctx = ctx)
  ∨ (truthyS ctx.start_date = false ∧
     ∃ f, searchISO ui = some f ∧ (captureStart ui ctx).start_date = some f)
  ∨ (truthyS ctx.start_date = false ∧ searchISO ui = Option.none ∧
     ∃ p, ctx.proposed_start_date = some p ∧ p ≠ "" ∧
       hasConfirm (lowerStr ui) = true ∧ (captureStart ui ctx).start_date = some p)
  ∨ (truthyS ctx.start_date = false ∧ searchISO ui = Option.none ∧
     captureStart ui ctx = ctx) := by
  by_cases h1 : truthyS ctx.start_date = true
  · exact Or.inl ⟨h1, by unfold captureStart; rw [if_pos h1]⟩
  · have h1f : truthyS ctx.start_date = false := by
      cases hb : truthyS ctx.start_date with
      | true => exact absurd hb h1
      | false => rfl
    have e : captureStart ui ctx =
        (match searchISO ui with
         | some d => { ctx with start_date := some d }
         | Option.none =>
           if truthyS ctx.proposed_start_date && hasConfirm (lowerStr ui) then
             { ctx with start_date := ctx.proposed_start_date }
           else ctx) := by
      unfold captureStart
      rw [if_neg h1, if_neg]
      rw [hc]
      simp
    cases hs : searchISO ui with
    | some f =>
      refine Or.inr (Or.inl ⟨h1f, f, rfl, ?_⟩)
      rw [e, hs]
    | none =>
      rw [hs] at e
      by_cases h3 : (truthyS ctx.proposed_start_date && hasConfirm (lowerStr ui)) = true
      · have hp : truthyS ctx.proposed_start_date = true := by
          have := Bool.and_eq_true_iff.mp h3
          exact this.1
        have hcf : hasConfirm (lowerStr ui) = true := by
          have := Bool.and_eq_true_iff.mp h3
          exact this.2
        cases hps : ctx.proposed_start_date with
        | none => rw [hps] at hp; exact absurd hp (by simp [truthyS])
        | some p =>
          have hpne : p ≠ "" := by
            rw [hps] at hp
            simpa [truthyS] using hp
          refine Or.inr (Or.inr (Or.inl ⟨h1f, rfl, p, rfl, hpne, hcf, ?_⟩))
          rw [e, if_pos h3, hps]
      · refine Or.inr (Or.inr (Or.inr ⟨h1f, rfl, ?_⟩))
        rw [e, if_neg h3]

theorem normalizeStep_start (year : Nat) (c : Ctx) :
    (normalizeStep year c).start_date = c.start_date.map (normalizeStart year) := by
  obtain ⟨uc, dest, sd, csd, psd, pm, dd, nt, fc⟩ := c
  cases sd with
  | none => rfl
  | some s =>
    show (if (decide (s ≠ "") && singleToken s) = true then _ else _ : Ctx).start_date = _
    by_cases h : (decide (s ≠ "") && singleToken s) = true
    · rw [if_pos h]
      show some (normalize_month year s) = some (normalizeStart year s)
      unfold normalizeStart
      rw [if_pos h]
    · rw [if_neg h]
      show some s = some (normalizeStart year s)
      unfold normalizeStart
      rw [if_neg h]

theorem normalizeStep_committed (year : Nat) (c : Ctx) :
    (normalizeStep year c).committed_start_date = c.committed_start_date := by
  obtain ⟨uc, dest, sd, csd, psd, pm, dd, nt, fc⟩ := c
  cases sd with
  | none => rfl
  | some s =>
    show (if (decide (s ≠ "") && singleToken s) = true then _ else _ : Ctx).committed_start_date = _
    by_cases h : (decide (s ≠ "") && singleToken s) = true
    · rw [if_pos h]
    · rw [if_neg h]

theorem commitStep_committed_sources (c : Ctx) (d : String)
    (h : (commitStep c).committed_start_date = some d) :
    c.committed_start_date = some d ∨
    (c.start_date = some d ∧ isISO d = true ∧ d ≠ "") := by
  obtain ⟨uc, dest, sd, csd, psd, pm, dd, nt, fc⟩ := c
  cases sd with
  | none => exact Or.inl h
  | some s =>
    unfold commitStep at h
    dsimp only at h
    by_cases h1 : (decide (s ≠ "") && isISO s) = true
    · rw [if_pos h1] at h
      have hd : s = d := by
        have : some s = some d := h
        exact Option.some.inj this
      subst hd
      have hpair := Bool.and_eq_true_iff.mp h1
      exact Or.inr ⟨rfl, hpair.2, by simpa using hpair.1⟩
    · rw [if_neg h1] at h
      by_cases h2 : (decide (s ≠ "") && !isISO s) = true
      · rw [if_pos h2] at h
        by_cases h3 : startsWithMonthAbbrev (trimStr (lowerStr s)) = true
        · rw [if_pos h3] at h
          exact Or.inl h
        · rw [if_neg h3] at h
          exact Or.inl h
      · rw [if_neg h2] at h
        exact Or.inl h

/-- Claim C3 counterexample: a context whose start_date is the bare month
name december, with no proposed date and no committed date, and an empty
user input, still ends with a committed start date: normalize_month turns
the month name into the first of that month (current year) and the ISO
test on line 82 then commits it. -/
theorem C3_counterexample :
    (processDates 2026 "" ctxDecember).committed_start_date = some "2026-12-01"
  ∧ searchISO "" = Option.none
  ∧ ctxDecember.proposed_start_date = Option.none
  ∧ ctxDecember.committed_start_date = Option.none := by
  decide

/-- Claim C3 (amended): when no committed date exists yet, a committed
start date can only arise from the ISO-normalized form of (i) a start
date already present in the context (including a bare full month name,
normalized to the first of that month), (ii) an ISO date found in the
user input, or (iii) a proposed date accepted through an explicit
confirmation phrase; the committed value always has ISO form. -/
theorem C3_commit_only_from (year : Nat) (ui : String) (ctx : Ctx)
    (hc : ctx.committed_start_date = Option.none) :
    ∀ d, (processDates year ui ctx).committed_start_date = some d →
    isISO d = true ∧
    ((∃ s, ctx.start_date = some s ∧ s ≠ "" ∧ d = normalizeStart year s)
     ∨ (truthyS ctx.start_date = false ∧
        ∃ f, searchISO ui = some f ∧ d = normalizeStart year f)
     ∨ (truthyS ctx.start_date = false ∧ searchISO ui = Option.none ∧
        ∃ p, ctx.proposed_start_date = some p ∧ p ≠ "" ∧
          hasConfirm (lowerStr ui) = true ∧ d = normalizeStart year p)) := by
  intro d hd
  have hcB : truthyS ctx.committed_start_date = false := by rw [hc]; rfl
  have hcap := captureStart_start ui ctx hcB
  have hcapc : (captureStart ui ctx).committed_start_date = Option.none := by
    rw [captureStart_committed, hc]
  unfold processDates at hd
  have hsrc := commitStep_committed_sources (normalizeStep year (captureStart ui ctx)) d hd
  rw [normalizeStep_committed, hcapc] at hsrc
  rcases hsrc with hbad | ⟨hstart, hiso, hdne⟩
  · exact absurd hbad (by simp)
  rw [normalizeStep_start] at hstart
  refine ⟨hiso, ?_⟩
  rcases hcap with ⟨ht, he⟩ | ⟨ht, f, hf, hcs⟩ | ⟨ht, hsearch, p, hp, hpne, hconf, hcs⟩ |
    ⟨ht, hsearch, he⟩
  · rw [he] at hstart
    cases hs0 : ctx.start_date with
    | none => rw [hs0] at ht; exact absurd ht (by simp [truthyS])
    | some s0 =>
      have hs0ne : s0 ≠ "" := by
        rw [hs0] at ht
        simpa [truthyS] using ht
      rw [hs0] at hstart
      have : normalizeStart year s0 = d := Option.some.inj hstart
      exact Or.inl ⟨s0, rfl, hs0ne, this.symm⟩
  · rw [hcs] at hstart
    have : normalizeStart year f = d := Option.some.inj hstart
    exact Or.inr (Or.inl ⟨ht, f, hf, this.symm⟩)
  · rw [hcs] at hstart
    have : normalizeStart year p = d := Option.some.inj hstart
    exact Or.inr (Or.inr ⟨ht, hsearch, p, hp, hpne, hconf, this.symm⟩)
  · rw [he] at hstart
    cases hs0 : ctx.start_date with
    | none => rw [hs0] at hstart; exact absurd hstart (by simp)
    | some s0 =>
      have hs0e : s0 = "" := by
        rw [hs0] at ht
        simpa [truthyS] using ht
      rw [hs0, hs0e] at hstart
      have hde : normalizeStart year "" = d := Option.some.inj hstart
      have : normalizeStart year "" = "" := rfl
      rw [this] at hde
      exact absurd hde.symm hdne

/-- Witness for C3_commit_only_from: a context already holding an ISO
start date commits exactly that date. -/
theorem C3_witness :
    isISO "2025-12-10" = true ∧
    ((∃ s, ctxISOStart.start_date = some s ∧ s ≠ "" ∧
        "2025-12-10" = normalizeStart 2026 s)
     ∨ (truthyS ctxISOStart.start_date = false ∧
        ∃ f, searchISO "" = some f ∧ "2025-12-10" = normalizeStart 2026 f)
     ∨ (truthyS ctxISOStart.start_date = false ∧ searchISO "" = Option.none ∧
        ∃ p, ctxISOStart.proposed_start_date = some p ∧ p ≠ "" ∧
          hasConfirm (lowerStr "") = true ∧ "2025-12-10" = normalizeStart 2026 p)) :=
  C3_commit_only_from 2026 "" ctxISOStart rfl "2025-12-10" (by decide)

theorem coerceOffer_error_prefix (kvs : List (String × PyScalar)) (m : String)
    (h : coerceOffer kvs = .error m) : ∃ tail, m = "bad_item:" ++ tail := by
  unfold coerceOffer at h
  cases hp : kvs.lookup "price" with
  | none =>
    rw [hp] at h
    dsimp only at h
    injection h with h2
    exact ⟨"KeyError price", by rw [← h2]; decide⟩
  | some pv =>
    rw [hp] at h
    dsimp only at h
    cases hf : pyFloat pv with
    | error e =>
      rw [hf] at h
      dsimp only at h
      injection h with h2
      exact ⟨e, h2.symm⟩
    | ok q =>
      rw [hf] at h
      dsimp only at h
      cases hd1 : kvs.lookup "departure_airport" with
      | none =>
        rw [hd1] at h
        dsimp only at h
        injection h with h2
        exact ⟨"KeyError departure_airport", by rw [← h2]; decide⟩
      | some da =>
        rw [hd1] at h
        dsimp only at h
        cases hd2 : kvs.lookup "arrival_airport" with
        | none =>
          rw [hd2] at h
          dsimp only at h
          injection h with h2
          exact ⟨"KeyError arrival_airport", by rw [← h2]; decide⟩
        | some aa =>
          rw [hd2] at h
          dsimp only at h
          cases hd3 : kvs.lookup "departure_time" with
          | none =>
            rw [hd3] at h
            dsimp only at h
            injection h with h2
            exact ⟨"KeyError departure_time", by rw [← h2]; decide⟩
          | some dt =>
            rw [hd3] at h
            dsimp only at h
            exact Except.noConfusion h

/-- Claim C5: validate_flights is total (it is a function in this
embedding, mirroring the per-item try/except of the source): a non-list
payload yields no offers and the single error not_list; a dictionary
carrying a truthy error value contributes exactly that message and no
offer, with the concrete case of the spec; an element whose FlightOffer
coercion fails contributes an error starting with bad_item: while the
rest of the batch is still processed. -/
theorem C5_validate_flights_behaviour :
    (∀ v, validate_flights (.nonList v) = ([], [.pstr "not_list"]))
  ∧ validate_flights (.plist [.dict [("error", .pstr "no route")]]) =
      ([], [.pstr "no route"])
  ∧ (∀ kvs v rest, kvs.lookup "error" = some v → truthy v = true →
      validateItems (.dict kvs :: rest) =
        ((validateItems rest).1, v :: (validateItems rest).2))
  ∧ (∀ kvs m rest, kvs.lookup "error" = Option.none → coerceOffer kvs = .error m →
      validateItems (.dict kvs :: rest) =
        ((validateItems rest).1, .pstr m :: (validateItems rest).2) ∧
      ∃ tail, m = "bad_item:" ++ tail) := by
  refine ⟨fun v => rfl, by decide, ?_, ?_⟩
  · intro kvs v rest he ht
    simp [validateItems, validateItem, he, ht]
  · intro kvs m rest he hm
    exact ⟨by simp [validateItems, validateItem, he, hm],
      coerceOffer_error_prefix kvs m hm⟩

/-- Witness for C5_validate_flights_behaviour: a truthy error value is
carried through unchanged. -/
theorem C5_witness :
    validateItems [.dict [("error", PyScalar.pstr "boom")]] =
      ([], [PyScalar.pstr "boom"]) := by
  have h := C5_validate_flights_behaviour.2.2.1
    [("error", PyScalar.pstr "boom")] (PyScalar.pstr "boom") [] rfl rfl
  exact h.trans (by decide)

/-- Claim C10: a non-dictionary list element contributes non_dict_item, a
dictionary whose error key holds a falsy value contributes the substitute
flight_error, and in both cases the remaining elements are still
processed (the tail results are appended unchanged). -/
theorem C10_item_skip_rules :
    (∀ v rest, validateItems (.scalar v :: rest) =
      ((validateItems rest).1, .pstr "non_dict_item" :: (validateItems rest).2))
  ∧ (∀ kvs v rest, kvs.lookup "error" = some v → truthy v = false →
      validateItems (.dict kvs :: rest) =
        ((validateItems rest).1, .pstr "flight_error" :: (validateItems rest).2)) := by
  constructor
  · intro v rest
    simp [validateItems, validateItem]
  · intro kvs v rest he ht
    simp [validateItems, validateItem, he, ht]

/-- Witness for C10_item_skip_rules: a falsy error value followed by a
non-dictionary element yields the two substitute errors in order. -/
theorem C10_witness :
    validateItems [PyItem.dict [("error", PyScalar.pnone)],
        PyItem.scalar PyScalar.pnone] =
      ([], [PyScalar.pstr "flight_error", PyScalar.pstr "non_dict_item"]) := by
  have h := C10_item_skip_rules.2 [("error", PyScalar.pnone)] PyScalar.pnone
    [PyItem.scalar PyScalar.pnone] rfl rfl
  exact h.trans (by decide)

theorem foldl_min_mem (x : ℚ) (l : List ℚ) : l.foldl min x ∈ x :: l := by
  induction l generalizing x with
  | nil => simp
  | cons a t ih =>
    rw [List.foldl_cons]
    rcases List.mem_cons.mp (ih (min x a)) with h1 | h2
    · rcases min_choice x a with hm | hm
      · rw [h1, hm]; exact List.mem_cons_self _ _
      · rw [h1, hm]; exact List.mem_cons_of_mem _ (List.mem_cons_self _ _)
    · exact List.mem_cons_of_mem _ (List.mem_cons_of_mem _ h2)

theorem foldl_min_le (x : ℚ) (l : List ℚ) : ∀ y ∈ x :: l, l.foldl min x ≤ y := by
  induction l generalizing x with
  | nil =>
    intro y hy
    have : y = x := by simpa using hy
    simp [this]
  | cons a t ih =>
    intro y hy
    rw [List.foldl_cons]
    rcases List.mem_cons.mp hy with h1 | h2
    · rw [h1]
      calc t.foldl min (min x a) ≤ min x a :=
            ih (min x a) (min x a) (List.mem_cons_self _ _)
        _ ≤ x := min_le_left _ _
    · rcases List.mem_cons.mp h2 with h3 | h4
      · rw [h3]
        calc t.foldl min (min x a) ≤ min x a :=
              ih (min x a) (min x a) (List.mem_cons_self _ _)
          _ ≤ a := min_le_right _ _
      · exact ih (min x a) y (List.mem_cons_of_mem _ h4)

/-- Claim C6: extract_min_price of the empty list is None; on any
non-empty list it returns a price of the list that is a lower bound of
all prices, i.e. the minimum; on the concrete offers priced 820, 430 and
999 it returns 430. -/
theorem C6_extract_min_price_correct :
    extract_min_price ([] : List FlightOffer) = Option.none
  ∧ (∀ (o : FlightOffer) (rest : List FlightOffer), ∃ m,
      extract_min_price (o :: rest) = some m ∧
      m ∈ (o :: rest).map (fun x => x.price) ∧
      ∀ q ∈ (o :: rest).map (fun x => x.price), m ≤ q)
  ∧ extract_min_price offers820 = some 430 := by
  refine ⟨rfl, ?_, by decide⟩
  intro o rest
  refine ⟨rest.foldl (fun (m : ℚ) (x : FlightOffer) => min m x.price) o.price, rfl, ?_, ?_⟩
  · have e : rest.foldl (fun m x => min m x.price) o.price =
        (rest.map fun x => x.price).foldl min o.price :=
      (List.foldl_map _ _ _ _).symm
    rw [List.map_cons, e]
    exact foldl_min_mem o.price (rest.map fun x => x.price)
  · intro q hq
    have e : rest.foldl (fun m x => min m x.price) o.price =
        (rest.map fun x => x.price).foldl min o.price :=
      (List.foldl_map _ _ _ _).symm
    rw [List.map_cons] at hq
    rw [e]
    exact foldl_min_le o.price (rest.map fun x => x.price) q hq

/-- Witness for C6_extract_min_price_correct at the concrete offers. -/
theorem C6_witness : extract_min_price offers820 = some 430 :=
  C6_extract_min_price_correct.2.2

/-- Claim C7: run_tool is total on every modelled outcome; a success
returns the payload with ok true; every raised error is reported with
exactly one of the three classifications, chosen from the lowercased
error text with network markers first, then invalid-input markers, else
external_failure; run_parallel keeps every batch name and converts an
await-layer failure into an external_failure ToolResult. -/
theorem C7_wrapper_classification :
    (∀ e, classify_error e = "network_error" ∨ classify_error e = "invalid_input" ∨
      classify_error e = "external_failure")
  ∧ (∀ e, (strContains (lowerStr e) "timeout" || strContains (lowerStr e) "connection" ||
        strContains (lowerStr e) "network") = true →
      classify_error e = "network_error")
  ∧ (∀ e, (strContains (lowerStr e) "timeout" || strContains (lowerStr e) "connection" ||
        strContains (lowerStr e) "network") = false →
      (strContains (lowerStr e) "invalid" || strContains (lowerStr e) "valueerror") = true →
      classify_error e = "invalid_input")
  ∧ (∀ e, (strContains (lowerStr e) "timeout" || strContains (lowerStr e) "connection" ||
        strContains (lowerStr e) "network") = false →
      (strContains (lowerStr e) "invalid" || strContains (lowerStr e) "valueerror") = false →
      classify_error e = "external_failure")
  ∧ (∀ name d raw, run_tool name d (.ok raw) =
      { ok := true, data := some raw, error := Option.none,
        meta := some { tool := name, latency_ms := d } })
  ∧ (∀ name d e, run_tool name d (.error e) =
      { ok := false, data := Option.none,
        error := some (classify_error e ++ ": " ++ e),
        meta := some { tool := name, latency_ms := d } })
  ∧ (∀ batch, (run_parallel batch).map Prod.fst = batch.map Prod.fst)
  ∧ (∀ k e batch, (k, TaskOutcome.awaitError e) ∈ batch →
      (k, ({ ok := false, data := Option.none,
             error := some ("external_failure: " ++ e),
             meta := Option.none } : ToolResult)) ∈ run_parallel batch) := by
  have hnet : ∀ e, (strContains (lowerStr e) "timeout" || strContains (lowerStr e) "connection" ||
      strContains (lowerStr e) "network") = true → classify_error e = "network_error" := by
    intro e h
    unfold classify_error
    rw [if_pos h]
  have hinv : ∀ e, (strContains (lowerStr e) "timeout" || strContains (lowerStr e) "connection" ||
      strContains (lowerStr e) "network") = false →
      (strContains (lowerStr e) "invalid" || strContains (lowerStr e) "valueerror") = true →
      classify_error e = "invalid_input" := by
    intro e h1 h2
    unfold classify_error
    rw [if_neg (by simp [h1]), if_pos h2]
  have hext : ∀ e, (strContains (lowerStr e) "timeout" || strContains (lowerStr e) "connection" ||
      strContains (lowerStr e) "network") = false →
      (strContains (lowerStr e) "invalid" || strContains (lowerStr e) "valueerror") = false →
      classify_error e = "external_failure" := by
    intro e h1 h2
    unfold classify_error
    rw [if_neg (by simp [h1]), if_neg (by simp [h2])]
  refine ⟨?_, hnet, hinv, hext, fun name d raw => rfl, fun name d e => rfl, ?_, ?_⟩
  · intro e
    cases h1 : (strContains (lowerStr e) "timeout" || strContains (lowerStr e) "connection" ||
        strContains (lowerStr e) "network") with
    | true => exact Or.inl (hnet e h1)
    | false =>
      cases h2 : (strContains (lowerStr e) "invalid" || strContains (lowerStr e) "valueerror") with
      | true => exact Or.inr (Or.inl (hinv e h1 h2))
      | false => exact Or.inr (Or.inr (hext e h1 h2))
  · intro batch
    rw [run_parallel, List.map_map]
    rfl
  · intro k e batch hmem
    exact List.mem_map_of_mem _ hmem

/-- Witness for C7_wrapper_classification: an invalid-input marker with no
network marker classifies as invalid_input. -/
theorem C7_witness : classify_error "invalid token" = "invalid_input" :=
  C7_wrapper_classification.2.2.1 "invalid token" (by decide) (by decide)

/-- Claim C8 counterexample: the embedded run_tool — whose result depends
on the elapsed duration only through the latency metadata, mirroring the
absence of any wait_for or timeout in the source wrapper — lets a call of
duration 1000 (far past the reference limit of 15) succeed with ok true,
so no per-call timeout is enforced. -/
theorem C8_counterexample : ¬ timeoutEnforcedClaim := by
  intro h
  have h2 := (h "flights" 1000 (.ok (.plist [])) (by decide)).1
  exact absurd h2 (by decide)

/-- Claim C8 (amended): the wrapper enforces no per-call timeout — the
success flag, payload and error of run_tool are independent of the call
duration, which only the latency metadata records; a timeout surfaces as
a network_error-classified failure only when the awaited callable itself
raises an error whose text contains a timeout marker. -/
theorem C8_no_wrapper_timeout :
    (∀ name d1 d2 outcome,
      (run_tool name d1 outcome).ok = (run_tool name d2 outcome).ok ∧
      (run_tool name d1 outcome).error = (run_tool name d2 outcome).error ∧
      (run_tool name d1 outcome).data = (run_tool name d2 outcome).data)
  ∧ (∀ name d e, strContains (lowerStr e) "timeout" = true →
      (run_tool name d (.error e)).error = some ("network_error: " ++ e)) := by
  constructor
  · intro name d1 d2 outcome
    cases outcome with
    | ok raw => exact ⟨rfl, rfl, rfl⟩
    | error e => exact ⟨rfl, rfl, rfl⟩
  · intro name d e h
    have hc : classify_error e = "network_error" := by
      unfold classify_error
      rw [if_pos (by rw [h]; rfl)]
    show some (classify_error e ++ ": " ++ e) = some ("network_error: " ++ e)
    rw [hc]
    rfl

/-- Witness for C8_no_wrapper_timeout: a raised timeout is reported as a
network_error. -/
theorem C8_witness :
    (run_tool "weather" 0 (.error "timeout after 10s")).error =
      some ("network_error: " ++ "timeout after 10s") :=
  C8_no_wrapper_timeout.2 "weather" 0 "timeout after 10s" (by decide)

/-- Claim C4: on the full context, with the flights tool returning offers
priced 120 and 95, the derived flight cost is the minimum 95, and the
flights step reaches the terminal status done for the successful tool
result (step statuses per the spec-modelled executor update, the
derivation per the embedded agent code). -/
theorem C4_flight_cost_and_status :
    derive_flight_cost flightsPayload ctxFull =
      .ok { ctxFull with flight_cost := some 95 }
  ∧ step_status_after (run_tool "flights" 7 (.ok flightsPayload)) = "done" := by
  exact ⟨by rfl, by rfl⟩

end TripPlanner
